import Mathlib

/-!
Verification of the GPhotosAlbum_To_Immich sync core against its design
specification.  The Go sources under `pkg/googlephotos` (scraper.go,
client.go) and `pkg/app` (app.go) are shallowly embedded below: pure Go
functions become Lean functions on `List Char` / `String` / `Int`, the
HTTP transport becomes an explicit oracle, and side effects (probe,
full-body download, upload) become an explicit effect trace.  Machine
integers are modelled as `Int` with explicit 64-bit range checks where
the Go code's behaviour depends on them; the wall clock is an explicit
millisecond parameter.
-/

/-! ## Loosely-structured JSON values

Result type of Go's `json.Unmarshal` into `[]interface{}` / `interface{}`:
strings, numbers, booleans, null, arrays and objects.  JSON numbers are
`float64` in Go; the embedded payloads the scraper consumes carry only
integral numbers, so numbers are modelled as `Int` (the one numeric
conversion the code performs, `int64(float64)`, is the identity there). -/

inductive JValue where
  | null : JValue
  | bool (b : Bool) : JValue
  | num (n : Int) : JValue
  | str (s : String) : JValue
  | arr (xs : List JValue) : JValue
  | obj (fields : List (String × JValue)) : JValue

/-! ## strconv.ParseInt(s, 10, 64) -/

/-- Value of a nonempty all-digit run, `none` otherwise. -/
def digitsVal (cs : List Char) : Option Nat :=
  if cs ≠ [] ∧ cs.all Char.isDigit then
    some (cs.foldl (fun acc c => acc * 10 + (c.toNat - '0'.toNat)) 0)
  else none

/-- 64-bit signed range check performed by `strconv.ParseInt(_, 10, 64)`:
out-of-range values produce an error (the scraper then discards them). -/
def int64Check (n : Int) : Option Int :=
  if -(2 ^ 63) ≤ n ∧ n ≤ 2 ^ 63 - 1 then some n else none

/-- Models Go `strconv.ParseInt(s, 10, 64)`: optional sign, a nonempty
digit run, 64-bit range check. -/
def goParseInt (s : String) : Option Int :=
  match s.toList with
  | '+' :: ds => (digitsVal ds).bind fun n => int64Check (Int.ofNat n)
  | '-' :: ds => (digitsVal ds).bind fun n => int64Check (-(Int.ofNat n))
  | ds => (digitsVal ds).bind fun n => int64Check (Int.ofNat n)

/-- The `extractInt` closure in scraper.go: a string parsing as a base-10
64-bit integer, or a JSON number (`float64`, truncated by `int64(val)`;
identity on the integral numbers modelled here). -/
def extractInt (v : JValue) : Option Int :=
  match v with
  | .str s => goParseInt s
  | .num n => some n
  | _ => none

/-! ## extractTimestamp (scraper.go) -/

/-- Epoch milliseconds of 2000-01-01T00:00:00Z, the literal floor in
scraper.go. -/
def epochFloorMs : Int := 946684800000

/-- One day in milliseconds (`24 * time.Hour` at millisecond precision). -/
def dayMs : Int := 86400000

/-- The candidate window check in `extractTimestamp`:
`t > 946684800000 && time.UnixMilli(t).Before(now.Add(24*time.Hour))`,
with the clock modelled at millisecond precision. -/
def tsOk (nowMs t : Int) : Bool :=
  decide (epochFloorMs < t ∧ t < nowMs + dayMs)

/-- Candidates contributed by one positional slot of the item array, in
the order the Go loop body appends them: first the nested array's first
element (when the slot is a nonempty array), then the slot's direct
value.  `extractInt` of an array is `none`, so these never both fire. -/
def slotCandidates (nowMs : Int) (v : JValue) : List Int :=
  (match v with
   | .arr (x :: _) =>
     match extractInt x with
     | some t => if tsOk nowMs t then [t] else []
     | none => []
   | _ => []) ++
  (match extractInt v with
   | some t => if tsOk nowMs t then [t] else []
   | none => [])

/-- `extractTimestamp` from scraper.go: collect window-checked candidates
from the slots at index 2 onward, return `none` when there are none,
otherwise scan for the smallest (`best := candidates[0]`, then
`if c < best { best = c }` over the rest).  `none` models the zero
`time.Time{}`. -/
def extractTimestamp (itemArr : List JValue) (nowMs : Int) : Option Int :=
  match (itemArr.drop 2).flatMap (slotCandidates nowMs) with
  | [] => none
  | best :: rest => some (rest.foldl (fun b c => if c < b then c else b) best)

/-- The raw values a slot exposes to the timestamp scan, before any
parsing or window check: the first element of a nested array, and the
slot's own value. -/
def slotRawValues (v : JValue) : List JValue :=
  (match v with
   | .arr (x :: _) => [x]
   | _ => []) ++ [v]

/-- Written from the spec's words (§4.2 step 8): scan every positional
slot from index 2 onward, parse each exposed value as an integer, keep
those strictly inside the (2000-01-01, now + 1 day) window, and select
the smallest surviving candidate; absent when none survives. -/
def takenAtOfSpec (itemArr : List JValue) (nowMs : Int) : Option Int :=
  ((((itemArr.drop 2).flatMap slotRawValues).filterMap extractInt).filter
    (tsOk nowMs)).min?

lemma extractInt_arr (xs : List JValue) : extractInt (.arr xs) = none := rfl
lemma extractInt_null : extractInt .null = none := rfl
lemma extractInt_bool (b : Bool) : extractInt (.bool b) = none := rfl
lemma extractInt_obj (fs : List (String × JValue)) :
    extractInt (.obj fs) = none := rfl

lemma slotCandidates_eq (nowMs : Int) (v : JValue) :
    slotCandidates nowMs v =
      ((slotRawValues v).filterMap extractInt).filter (tsOk nowMs) := by
  cases v with
  | arr xs =>
    cases xs with
    | nil => simp [slotCandidates, slotRawValues, extractInt_arr]
    | cons x xs =>
      cases h : extractInt x with
      | none => simp [slotCandidates, slotRawValues, extractInt_arr, h]
      | some t =>
        by_cases ht : tsOk nowMs t <;>
          simp [slotCandidates, slotRawValues, extractInt_arr, h, ht]
  | null => simp [slotCandidates, slotRawValues, extractInt_null]
  | bool b => simp [slotCandidates, slotRawValues, extractInt_bool]
  | obj fs => simp [slotCandidates, slotRawValues, extractInt_obj]
  | num n =>
    by_cases ht : tsOk nowMs n <;>
      simp [slotCandidates, slotRawValues, extractInt, ht]
  | str s =>
    cases h : extractInt (JValue.str s) with
    | none => simp [slotCandidates, slotRawValues, h]
    | some t =>
      by_cases ht : tsOk nowMs t <;>
        simp [slotCandidates, slotRawValues, h, ht]

lemma candidates_eq (nowMs : Int) (l : List JValue) :
    l.flatMap (slotCandidates nowMs) =
      ((l.flatMap slotRawValues).filterMap extractInt).filter (tsOk nowMs) := by
  induction l with
  | nil => simp
  | cons v l ih =>
    simp only [List.flatMap_cons, List.filterMap_append, List.filter_append,
      ih, slotCandidates_eq]

lemma foldl_minScan_eq (best : Int) (rest : List Int) :
    rest.foldl (fun b c => if c < b then c else b) best =
      rest.foldl min best := by
  have hf : (fun (b c : Int) => if c < b then c else b) = min := by
    funext b c
    rcases lt_or_le c b with h | h
    · simp [h, min_def, not_le.mpr h]
    · simp [not_lt.mpr h, min_def, h]
  rw [hf]

/-- First example item of claim C1: three nested candidate slots holding
1700000000000, 1705000000000 and 9999999999999 (the last beyond the
now-plus-one-day ceiling at the chosen clock reading). -/
def c1Item : List JValue :=
  [.str "itemId", .arr [.str "https://base", .num 640, .num 480],
   .arr [.num 1700000000000], .arr [.num 1705000000000],
   .arr [.num 9999999999999]]

/-- Item with no surviving candidate (its only numeric slot is before the
2000-01-01 floor). -/
def c1NoCandItem : List JValue :=
  [.str "itemId", .arr [.str "https://base"], .arr [.num 1234]]

/-- Claim C1: the extracted `takenAt` scans positional slots from index 2
onward (a nested array's first element and the slot's direct value),
keeps integer-parsing values strictly between the 2000-01-01 epoch
millisecond and now plus one day, and selects the smallest survivor;
for candidates [1700000000000, 1705000000000, 9999999999999] the result
is 1700000000000, and with no survivor the timestamp is absent. -/
theorem extractTimestamp_selects_min_valid_candidate :
    (∀ (itemArr : List JValue) (nowMs : Int),
        extractTimestamp itemArr nowMs = takenAtOfSpec itemArr nowMs) ∧
    extractTimestamp c1Item 1760000000000 = some 1700000000000 ∧
    extractTimestamp c1NoCandItem 1760000000000 = none := by
  refine ⟨fun itemArr nowMs => ?_, by decide, by decide⟩
  unfold extractTimestamp takenAtOfSpec
  rw [candidates_eq]
  cases ((itemArr.drop 2).flatMap slotRawValues).filterMap extractInt
      |>.filter (tsOk nowMs) with
  | nil => rfl
  | cons c cs =>
    show some (cs.foldl (fun b x => if x < b then x else b) c) = (c :: cs).min?
    rw [foldl_minScan_eq]
    rfl

/-! ## Basename derivation (app.go processItem, lines 249-251) -/

/-- Go `strings.ReplaceAll(s, old, new)` specialised to the
single-character patterns used at the call sites ("/" and ":"): with a
one-character pattern, non-overlapping leftmost replacement is exactly a
character map. -/
def goReplaceAllChar (s : List Char) (old new : Char) : List Char :=
  match s with
  | [] => []
  | c :: rest => (if c = old then new else c) :: goReplaceAllChar rest old new

/-- The basename computed by `processItem`:
`safeId := ReplaceAll(ReplaceAll(p.ID, "/", "_"), ":", "_")`;
`baseName := "gp_" + safeId`. -/
def baseNameOf (id : String) : String :=
  "gp_" ++ String.mk (goReplaceAllChar (goReplaceAllChar id.toList '/' '_') ':' '_')

/-- Single-character substitution the claim describes: '/' and ':' each
become '_', all other characters unchanged. -/
def slashColonToUnderscore (c : Char) : Char :=
  if c = '/' ∨ c = ':' then '_' else c

lemma goReplaceAllChar_twice_eq_map (s : List Char) :
    goReplaceAllChar (goReplaceAllChar s '/' '_') ':' '_' =
      s.map slashColonToUnderscore := by
  induction s with
  | nil => rfl
  | cons c rest ih =>
    simp only [goReplaceAllChar, List.map_cons, ih, slashColonToUnderscore]
    by_cases h1 : c = '/'
    · simp [h1]
    · by_cases h2 : c = ':' <;> simp [h1, h2]

/-- Claim C9: the derived upload basename is the fixed tag "gp_" followed
by the item id with every '/' and every ':' replaced by '_'; in
particular "AF1Qip/abc:123" yields "gp_AF1Qip_abc_123". -/
theorem baseNameOf_tag_and_substitution :
    (∀ id : String,
        baseNameOf id =
          "gp_" ++ String.mk (id.toList.map slashColonToUnderscore)) ∧
    baseNameOf "AF1Qip/abc:123" = "gp_AF1Qip_abc_123" := by
  constructor
  · intro id
    unfold baseNameOf
    rw [goReplaceAllChar_twice_eq_map]
  · decide

/-! ## Result collection (app.go processAlbum, lines 221-236)

Worker results arrive on a channel in some interleaving order; the model
takes the arrival order as a list.  `processResult` carries the asset ID
(empty for skipped items), the `WasUploaded` flag, and the per-item
error. -/

structure ProcResult where
  id : String
  wasUploaded : Bool
  error : Option String
  deriving DecidableEq, Repr

structure PassSummary where
  processed : Nat
  added : Nat
  skipped : Nat
  failed : Nat
  newAssetIds : List String
  deriving DecidableEq, Repr

/-- One iteration of the collection loop in `processAlbum`. -/
def collectStep (s : PassSummary) (r : ProcResult) : PassSummary :=
  let s := { s with processed := s.processed + 1 }
  if r.error.isSome then
    { s with failed := s.failed + 1 }
  else
    let s :=
      if r.wasUploaded then { s with added := s.added + 1 }
      else if r.id = "" then { s with skipped := s.skipped + 1 }
      else s
    if r.id ≠ "" then { s with newAssetIds := s.newAssetIds ++ [r.id] } else s

/-- The whole collection loop, starting from the zeroed counters. -/
def collectResults (rs : List ProcResult) : PassSummary :=
  rs.foldl collectStep ⟨0, 0, 0, 0, []⟩

/-- Outcome Uploaded: no error and the worker reported a fresh upload. -/
def isUploadedR (r : ProcResult) : Bool :=
  r.error = none ∧ r.wasUploaded

/-- Outcome Deduplicated: no error, not a fresh upload, but an asset ID
was still reported (the destination recognised existing content). -/
def isDedupR (r : ProcResult) : Bool :=
  r.error = none ∧ ¬r.wasUploaded ∧ r.id ≠ ""

/-- A result can only report a fresh upload together with a nonempty
asset ID (processItem turns an empty upload ID into an error). -/
def validResult (r : ProcResult) : Prop :=
  r.error = none → r.wasUploaded → r.id ≠ ""

lemma collectStep_newAssetIds (s : PassSummary) (r : ProcResult)
    (hv : validResult r) :
    (collectStep s r).newAssetIds =
      s.newAssetIds ++ if isUploadedR r ∨ isDedupR r then [r.id] else [] := by
  unfold collectStep isUploadedR isDedupR
  cases he : r.error with
  | some e => simp [he]
  | none =>
    by_cases hu : r.wasUploaded
    · have hid : r.id ≠ "" := hv he hu
      simp [he, hu, hid]
    · by_cases hid : r.id = "" <;> simp [he, hu, hid]

lemma collect_foldl_newAssetIds (rs : List ProcResult) (s : PassSummary)
    (hv : ∀ r ∈ rs, validResult r) :
    (rs.foldl collectStep s).newAssetIds =
      s.newAssetIds ++
        (rs.filter (fun r => isUploadedR r ∨ isDedupR r)).map (·.id) := by
  induction rs generalizing s with
  | nil => simp
  | cons r rs ih =>
    have hr : validResult r := hv r (List.mem_cons_self r rs)
    have hrs : ∀ x ∈ rs, validResult x := fun x hx =>
      hv x (List.mem_cons_of_mem r hx)
    rw [List.foldl_cons, ih _ hrs, collectStep_newAssetIds s r hr]
    by_cases h : isUploadedR r ∨ isDedupR r
    · simp [h, List.filter_cons]
    · simp [h, List.filter_cons]

/-! ## Media resolution (scraper.go DownloadMedia) and item processing
(app.go processItem)

The HTTP transport is an oracle mapping a URL to a transport error or a
response; side effects are recorded in an explicit trace.  `bufferBody`
marks an `io.ReadAll` of a response body (the full-body buffering step);
`getReq` marks a GET being issued at all. -/

structure HttpResp where
  status : Nat
  contentType : String
  bodyLen : Nat
  retryAfter : Option Int
  deriving DecidableEq, Repr

structure NetOracle where
  head : String → Except String HttpResp
  get : String → Except String HttpResp

inductive NetEffect where
  | headProbe (url : String) : NetEffect
  | getReq (url : String) : NetEffect
  | bufferBody (url : String) : NetEffect
  | uploadCall (filename : String) : NetEffect
  deriving DecidableEq, Repr

/-- RE2/Go whitespace relevant to the headers handled here (ASCII subset
of `unicode.IsSpace`). -/
def isGoSpace (c : Char) : Bool :=
  c = ' ' ∨ c = '\t' ∨ c = '\n' ∨ c = '\r' ∨ c = '\x0b' ∨ c = '\x0c'

def goTrimSpace (cs : List Char) : List Char :=
  ((cs.dropWhile isGoSpace).reverse.dropWhile isGoSpace).reverse

/-- `extensionFromContentType` from scraper.go:
`ct := strings.ToLower(strings.TrimSpace(strings.SplitN(contentType, ";", 2)[0]))`
followed by the fixed switch table.  (`ToLower` modelled on ASCII; media
types are ASCII.) -/
def extensionFromContentType (contentType : String) : String :=
  let ct := String.mk ((goTrimSpace (contentType.toList.takeWhile (· ≠ ';'))).map
    Char.toLower)
  if ct = "image/jpeg" then ".jpg"
  else if ct = "image/png" then ".png"
  else if ct = "image/gif" then ".gif"
  else if ct = "image/webp" then ".webp"
  else if ct = "image/heic" ∨ ct = "image/heif" then ".heic"
  else if ct = "image/avif" then ".avif"
  else if ct = "video/mp4" then ".mp4"
  else if ct = "video/webm" then ".webm"
  else if ct = "video/quicktime" then ".mov"
  else if ct = "video/x-matroska" then ".mkv"
  else if "video/".toList.isPrefixOf ct.toList then ".mp4"
  else ".jpg"

/-- `strings.HasPrefix(strings.ToLower(probeCt), "video/")` from
`DownloadMedia`. -/
def isVideoCT (ct : String) : Bool :=
  "video/".toList.isPrefixOf (ct.toList.map Char.toLower)

structure DownloadOk where
  size : Nat
  ext : String
  isVideo : Bool
  deriving DecidableEq, Repr

/-- `DownloadMedia` from scraper.go: HEAD probe on `baseUrl + "=d"` (only
a transport failure aborts here — the probe's status code is never
examined), then a GET on `"=dv"` for videos / `"=d"` for images whose
non-200 status is a hard error, and a full `io.ReadAll` buffering of the
body on success. -/
def downloadMedia (net : NetOracle) (baseUrl : String) :
    Except String DownloadOk × List NetEffect :=
  match net.head (baseUrl ++ "=d") with
  | .error e => (.error e, [.headProbe (baseUrl ++ "=d")])
  | .ok probe =>
    if isVideoCT probe.contentType then
      match net.get (baseUrl ++ "=dv") with
      | .error e =>
        (.error e, [.headProbe (baseUrl ++ "=d"), .getReq (baseUrl ++ "=dv")])
      | .ok resp =>
        if resp.status ≠ 200 then
          (.error ("failed to download video: " ++ toString resp.status),
           [.headProbe (baseUrl ++ "=d"), .getReq (baseUrl ++ "=dv")])
        else
          (.ok ⟨resp.bodyLen, extensionFromContentType resp.contentType, true⟩,
           [.headProbe (baseUrl ++ "=d"), .getReq (baseUrl ++ "=dv"),
            .bufferBody (baseUrl ++ "=dv")])
    else
      match net.get (baseUrl ++ "=d") with
      | .error e =>
        (.error e, [.headProbe (baseUrl ++ "=d"), .getReq (baseUrl ++ "=d")])
      | .ok resp =>
        if resp.status ≠ 200 then
          (.error ("failed to download image: " ++ toString resp.status),
           [.headProbe (baseUrl ++ "=d"), .getReq (baseUrl ++ "=d")])
        else
          (.ok ⟨resp.bodyLen, extensionFromContentType resp.contentType, false⟩,
           [.headProbe (baseUrl ++ "=d"), .getReq (baseUrl ++ "=d"),
            .bufferBody (baseUrl ++ "=d")])

structure Photo where
  id : String
  url : String
  width : Int
  height : Int
  takenAt : Option Int
  description : String
  uploader : String
  deriving DecidableEq, Repr

structure SyncConfig where
  strictMetadata : Bool
  skipVideos : Bool
  deriving DecidableEq, Repr

/-- `processItem` from app.go.  `upload` is the external destination
collaborator (`UploadAssetStream`), keyed by the upload filename and
returning `(assetId, isDuplicate)` or an error.  `takenAt = none` models
the zero `time.Time`. -/
def processItem (cfg : SyncConfig) (net : NetOracle)
    (upload : String → Except String (String × Bool))
    (existingFiles : List (String × String)) (p : Photo) :
    ProcResult × List NetEffect :=
  let baseName := baseNameOf p.id
  if (existingFiles.lookup baseName).isSome then
    (⟨"", false, none⟩, [])
  else if cfg.strictMetadata ∧ p.takenAt = none then
    (⟨"", false, none⟩, [])
  else
    match downloadMedia net p.url with
    | (.error e, effs) =>
      (⟨"", false, some ("error downloading item: " ++ e)⟩, effs)
    | (.ok dl, effs) =>
      if dl.isVideo ∧ cfg.skipVideos then
        (⟨"", false, none⟩, effs)
      else
        let filename := baseName ++ dl.ext
        match upload filename with
        | .error e =>
          (⟨"", false, some ("error uploading " ++ filename ++ ": " ++ e)⟩,
           effs ++ [.uploadCall filename])
        | .ok (uid, isDup) =>
          if uid = "" then
            (⟨"", false, some ("upload returned empty ID for " ++ filename)⟩,
             effs ++ [.uploadCall filename])
          else if isDup then
            (⟨uid, false, none⟩, effs ++ [.uploadCall filename])
          else
            (⟨uid, true, none⟩, effs ++ [.uploadCall filename])

/-- Claim C5: an item whose derived basename is already a key of the
pre-built existing-asset index is short-circuited: the result is the
Skipped outcome (empty ID, not uploaded, no error — counted as skipped
by the collection loop) and the effect trace is empty, so neither the
Media Resolver nor the upload collaborator is invoked. -/
theorem processItem_existing_index_hit_skips (cfg : SyncConfig)
    (net : NetOracle) (upload : String → Except String (String × Bool))
    (existingFiles : List (String × String)) (p : Photo)
    (h : (existingFiles.lookup (baseNameOf p.id)).isSome = true) :
    processItem cfg net upload existingFiles p = (⟨"", false, none⟩, []) ∧
    (collectResults [(processItem cfg net upload existingFiles p).1]).skipped
      = 1 := by
  have h1 : processItem cfg net upload existingFiles p = (⟨"", false, none⟩, []) := by
    unfold processItem
    simp [h]
  refine ⟨h1, ?_⟩
  rw [h1]
  rfl

theorem processItem_existing_index_hit_skips_witness :
    ((([("gp_a", "asset7")] : List (String × String)).lookup
        (baseNameOf "a")).isSome = true) ∧
    processItem ⟨false, false⟩
        ⟨fun _ => .error "no net", fun _ => .error "no net"⟩
        (fun _ => .error "no upload") [("gp_a", "asset7")]
        ⟨"a", "https://u", 0, 0, none, "", ""⟩ = (⟨"", false, none⟩, []) :=
  ⟨by decide,
   (processItem_existing_index_hit_skips ⟨false, false⟩
      ⟨fun _ => .error "no net", fun _ => .error "no net"⟩
      (fun _ => .error "no upload") [("gp_a", "asset7")]
      ⟨"a", "https://u", 0, 0, none, "", ""⟩ (by decide)).1⟩

/-! ### Claim C2: video-skip policy -/

def c2Net : NetOracle :=
  { head := fun _ => .ok ⟨200, "video/mp4", 0, none⟩
    get := fun _ => .ok ⟨200, "video/mp4", 123456, none⟩ }

def c2Cfg : SyncConfig := ⟨false, true⟩

def c2Photo : Photo := ⟨"vid1", "https://v", 0, 0, some 1700000000000, "", ""⟩

def c2Upload : String → Except String (String × Bool) :=
  fun _ => .ok ("a1", false)

/-- Claim C2 counterexample: with the video-skip policy on and a probe
reporting a video type, the item is skipped but its full body IS
downloaded and buffered (`bufferBody` of the `=dv` URL appears in the
trace), contradicting "never buffered beyond the probe". -/
theorem processItem_video_skip_buffers_body_anyway :
    c2Cfg.skipVideos = true ∧
    c2Net.head "https://v=d" = .ok ⟨200, "video/mp4", 0, none⟩ ∧
    isVideoCT "video/mp4" = true ∧
    (processItem c2Cfg c2Net c2Upload [] c2Photo).1 = ⟨"", false, none⟩ ∧
    ((processItem c2Cfg c2Net c2Upload [] c2Photo).2).contains
      (.bufferBody "https://v=dv") = true := by
  refine ⟨rfl, rfl, by decide, by decide, by decide⟩

/-- Claim C2 as amended: with the video-skip policy on, a successfully
probed-and-fetched video item yields the Skipped outcome and no upload
call, but only after the resolver has issued the full `=dv` GET and
buffered its entire body — the trace is exactly probe, GET, buffer. -/
theorem processItem_video_skip_after_full_download (cfg : SyncConfig)
    (net : NetOracle) (upload : String → Except String (String × Bool))
    (existingFiles : List (String × String)) (p : Photo)
    (probe resp : HttpResp)
    (hcfg : cfg.skipVideos = true)
    (hidx : (existingFiles.lookup (baseNameOf p.id)).isSome = false)
    (hmeta : ¬(cfg.strictMetadata = true ∧ p.takenAt = none))
    (hhead : net.head (p.url ++ "=d") = .ok probe)
    (hvid : isVideoCT probe.contentType = true)
    (hget : net.get (p.url ++ "=dv") = .ok resp)
    (hst : resp.status = 200) :
    processItem cfg net upload existingFiles p =
      (⟨"", false, none⟩,
       [.headProbe (p.url ++ "=d"), .getReq (p.url ++ "=dv"),
        .bufferBody (p.url ++ "=dv")]) := by
  have hdl : downloadMedia net p.url =
      (.ok ⟨resp.bodyLen, extensionFromContentType resp.contentType, true⟩,
       [.headProbe (p.url ++ "=d"), .getReq (p.url ++ "=dv"),
        .bufferBody (p.url ++ "=dv")]) := by
    unfold downloadMedia
    rw [hhead]
    simp [hvid, hget, hst]
  unfold processItem
  simp [hidx, hmeta, hdl, hcfg]

theorem processItem_video_skip_after_full_download_witness :
    processItem c2Cfg c2Net c2Upload [] c2Photo =
      (⟨"", false, none⟩,
       [.headProbe "https://v=d", .getReq "https://v=dv",
        .bufferBody "https://v=dv"]) :=
  processItem_video_skip_after_full_download c2Cfg c2Net c2Upload [] c2Photo
    ⟨200, "video/mp4", 0, none⟩ ⟨200, "video/mp4", 123456, none⟩
    rfl (by decide) (by decide) rfl (by decide) rfl rfl

/-! ### Claim C3: non-success statuses in the resolver -/

def c3Net : NetOracle :=
  { head := fun _ => .ok ⟨500, "image/jpeg", 0, none⟩
    get := fun _ => .ok ⟨200, "image/jpeg", 10, none⟩ }

/-- Claim C3 counterexample: a non-success status at the HEAD probe stage
alone does NOT make the resolver fail — with the probe answering 500 the
download still succeeds, because `DownloadMedia` never examines the
probe response's status code. -/
theorem downloadMedia_ignores_probe_status :
    c3Net.head "https://m=d" = .ok ⟨500, "image/jpeg", 0, none⟩ ∧
    (downloadMedia c3Net "https://m").1 = .ok ⟨10, ".jpg", false⟩ :=
  ⟨rfl, rfl⟩

/-- Claim C3 as amended: a non-success status at the BODY-FETCH stage is
a hard error for the item (both the video and the image branch), and the
probe stage errors only on transport failure — its status code is never
checked: any probe status whatsoever still proceeds to the fetch. -/
theorem downloadMedia_nonsuccess_fetch_is_error :
    (∀ (net : NetOracle) (u : String) (probe resp : HttpResp),
        net.head (u ++ "=d") = .ok probe →
        isVideoCT probe.contentType = true →
        net.get (u ++ "=dv") = .ok resp → resp.status ≠ 200 →
        (downloadMedia net u).1 =
          .error ("failed to download video: " ++ toString resp.status)) ∧
    (∀ (net : NetOracle) (u : String) (probe resp : HttpResp),
        net.head (u ++ "=d") = .ok probe →
        isVideoCT probe.contentType = false →
        net.get (u ++ "=d") = .ok resp → resp.status ≠ 200 →
        (downloadMedia net u).1 =
          .error ("failed to download image: " ++ toString resp.status)) ∧
    (∀ (net : NetOracle) (u : String) (probe resp : HttpResp),
        net.head (u ++ "=d") = .ok probe →
        isVideoCT probe.contentType = false →
        net.get (u ++ "=d") = .ok resp → resp.status = 200 →
        (downloadMedia net u).1 =
          .ok ⟨resp.bodyLen, extensionFromContentType resp.contentType, false⟩) := by
  refine ⟨?_, ?_, ?_⟩
  · intro net u probe resp hhead hvid hget hst
    unfold downloadMedia
    rw [hhead]
    simp [hvid, hget, hst]
  · intro net u probe resp hhead hvid hget hst
    unfold downloadMedia
    rw [hhead]
    simp [hvid, hget, hst]
  · intro net u probe resp hhead hvid hget hst
    unfold downloadMedia
    rw [hhead]
    simp [hvid, hget, hst]

def c3BadNet : NetOracle :=
  { head := fun _ => .ok ⟨200, "image/jpeg", 0, none⟩
    get := fun _ => .ok ⟨404, "text/html", 0, none⟩ }

theorem downloadMedia_nonsuccess_fetch_is_error_witness :
    (downloadMedia c3BadNet "https://m").1 =
      .error ("failed to download image: " ++ toString 404) :=
  downloadMedia_nonsuccess_fetch_is_error.2.1 c3BadNet "https://m"
    ⟨200, "image/jpeg", 0, none⟩ ⟨404, "text/html", 0, none⟩
    rfl (by decide) rfl (by decide)

lemma processItem_result_valid (cfg : SyncConfig) (net : NetOracle)
    (upload : String → Except String (String × Bool))
    (existingFiles : List (String × String)) (p : Photo) :
    validResult (processItem cfg net upload existingFiles p).1 := by
  unfold validResult processItem
  by_cases h1 : (existingFiles.lookup (baseNameOf p.id)).isSome
  · simp [h1]
  · by_cases h2 : cfg.strictMetadata = true ∧ p.takenAt = none
    · simp [h1, h2]
    · rcases hdl : downloadMedia net p.url with ⟨res, effs⟩
      cases res with
      | error e => simp [h1, h2, hdl]
      | ok dl =>
        by_cases h3 : dl.isVideo = true ∧ cfg.skipVideos = true
        · simp [h1, h2, hdl, h3]
        · cases hup : upload (baseNameOf p.id ++ dl.ext) with
          | error e => simp [h1, h2, hdl, h3, hup]
          | ok pr =>
            obtain ⟨uid, isDup⟩ := pr
            by_cases h4 : uid = ""
            · simp [h1, h2, hdl, h3, hup, h4]
            · by_cases h5 : isDup = true
              · simp [h1, h2, hdl, h3, hup, h4, h5]
              · simp [h1, h2, hdl, h3, hup, h4, h5]

/-- Claim C8: the batched add-to-album list collected by one pass holds
exactly, in arrival order, the asset identifiers of the results with
outcome Uploaded or Deduplicated — a destination-reported duplicate's
identifier is still included, while Skipped and Failed results
contribute none; and every result `processItem` can produce satisfies
the validity invariant (a fresh upload always carries a nonempty ID)
under which this holds. -/
theorem newAssetIds_are_uploaded_or_dedup
    (rs : List ProcResult) (hv : ∀ r ∈ rs, validResult r) :
    (collectResults rs).newAssetIds =
      (rs.filter (fun r => isUploadedR r ∨ isDedupR r)).map (·.id) ∧
    ∀ (cfg : SyncConfig) (net : NetOracle)
      (upload : String → Except String (String × Bool))
      (existingFiles : List (String × String)) (p : Photo),
      validResult (processItem cfg net upload existingFiles p).1 := by
  constructor
  · have h := collect_foldl_newAssetIds rs ⟨0, 0, 0, 0, []⟩ hv
    simpa [collectResults] using h
  · exact processItem_result_valid

theorem newAssetIds_are_uploaded_or_dedup_witness :
    (collectResults
        [⟨"u1", true, none⟩, ⟨"", false, none⟩, ⟨"d1", false, none⟩,
         ⟨"", false, some "boom"⟩]).newAssetIds = ["u1", "d1"] := by
  have h := (newAssetIds_are_uploaded_or_dedup
    [⟨"u1", true, none⟩, ⟨"", false, none⟩, ⟨"d1", false, none⟩,
     ⟨"", false, some "boom"⟩] (by intro r hr; fin_cases hr <;> intro h1 h2 <;>
       first | exact absurd h2 (by decide) | exact absurd h1 (by decide) | decide)).1
  rw [h]
  decide

/-- Claim C10: a destination-reported duplicate (Deduplicated outcome)
increments none of the added, skipped or failed counters while still
counting toward the processed total, so added + skipped + failed can be
strictly below the processed count — in particular it is strictly below
for a pass holding one such item. -/
theorem dedup_increments_no_counter (rs : List ProcResult) (r : ProcResult)
    (h : isDedupR r = true) :
    (collectResults (rs ++ [r])).added = (collectResults rs).added ∧
    (collectResults (rs ++ [r])).skipped = (collectResults rs).skipped ∧
    (collectResults (rs ++ [r])).failed = (collectResults rs).failed ∧
    (collectResults (rs ++ [r])).processed =
      (collectResults rs).processed + 1 ∧
    (collectResults [r]).added + (collectResults [r]).skipped +
      (collectResults [r]).failed < (collectResults [r]).processed := by
  have hprops : r.error = none ∧ r.wasUploaded = false ∧ r.id ≠ "" := by
    have := of_decide_eq_true h
    simp only [isDedupR] at h
    constructor
    · by_contra hc
      cases he : r.error with
      | none => exact hc he
      | some e => simp [isDedupR, he] at h
    · constructor
      · cases hu : r.wasUploaded with
        | false => rfl
        | true => simp [isDedupR, hu] at h
      · intro hid
        simp [isDedupR, hid] at h
  obtain ⟨he, hu, hid⟩ := hprops
  have hstep : ∀ s : PassSummary, collectStep s r =
      { s with processed := s.processed + 1,
               newAssetIds := s.newAssetIds ++ [r.id] } := by
    intro s
    unfold collectStep
    simp [he, hu, hid]
  have happ : collectResults (rs ++ [r]) = collectStep (collectResults rs) r := by
    unfold collectResults
    rw [List.foldl_append]
    rfl
  have hsingle : collectResults [r] = collectStep ⟨0, 0, 0, 0, []⟩ r := rfl
  rw [happ, hstep, hsingle, hstep]
  refine ⟨rfl, rfl, rfl, rfl, ?_⟩
  simp

theorem dedup_increments_no_counter_witness :
    isDedupR ⟨"dup9", false, none⟩ = true ∧
    (collectResults [⟨"dup9", false, none⟩]).added +
        (collectResults [⟨"dup9", false, none⟩]).skipped +
        (collectResults [⟨"dup9", false, none⟩]).failed <
      (collectResults [⟨"dup9", false, none⟩]).processed :=
  ⟨by decide,
   (dedup_increments_no_counter [] ⟨"dup9", false, none⟩ (by decide)).2.2.2.2⟩

/-! ## Resilient fetch client (client.go Client.Do)

The transport is an oracle giving attempt `i`'s outcome.  The random
pre-request jitter only delays the request and never affects the value
returned, so it is not modelled.  `retryAfter` holds the parsed value of
`time.ParseDuration(header + "s")` in milliseconds when the Retry-After
header is present and parses, `none` otherwise (both the empty header
and a parse failure leave the computed backoff in place). -/

def maxRetries : Nat := 5

/-- `backoff := 5 * time.Second`, in milliseconds. -/
def backoffMs : Int := 5000

/-- Sleep computed for a 429 on attempt `i`:
`sleepTime := backoff * time.Duration(i+1)`, overridden by a parseable
Retry-After header. -/
def retrySleepMs (r : HttpResp) (i : Nat) : Int :=
  match r.retryAfter with
  | some d => d
  | none => backoffMs * (Int.ofNat i + 1)

/-- The retry loop of `Client.Do`: attempt `i` of at most `fuel` more
iterations; a transport error returns immediately; a 429 closes the
body, sleeps and retries; any other response is returned; when the loop
exhausts, the last received response is returned as-is with nil error.
The returned list records the sleeps performed, in order. -/
def clientDoAux (net : Nat → Except String HttpResp) :
    Nat → Nat → Except String (HttpResp × List Int)
  | _, 0 => .error "no attempts"
  | i, fuel + 1 =>
    match net i with
    | .error e => .error e
    | .ok r =>
      if r.status = 429 then
        match fuel with
        | 0 => .ok (r, [retrySleepMs r i])
        | fuel2 + 1 =>
          match clientDoAux net (i + 1) (fuel2 + 1) with
          | .error e => .error e
          | .ok (r2, ss) => .ok (r2, retrySleepMs r i :: ss)
      else .ok (r, [])

def clientDo (net : Nat → Except String HttpResp) :
    Except String (HttpResp × List Int) :=
  clientDoAux net 0 maxRetries

/-- The sleeps performed for `k` consecutive 429 responses starting at
attempt `i`. -/
def sleepsFor (rs : Nat → HttpResp) (i k : Nat) : List Int :=
  match k with
  | 0 => []
  | k' + 1 => retrySleepMs (rs i) i :: sleepsFor rs (i + 1) k'

lemma doAux_run (rs : Nat → HttpResp) :
    ∀ (k fuel i : Nat), k < fuel →
      (∀ j, j < k → (rs (i + j)).status = 429) →
      (rs (i + k)).status ≠ 429 →
      clientDoAux (fun n => .ok (rs n)) i fuel =
        .ok (rs (i + k), sleepsFor rs i k) := by
  intro k
  induction k with
  | zero =>
    intro fuel i hlt h429 hne
    obtain ⟨f, rfl⟩ : ∃ f, fuel = f + 1 :=
      ⟨fuel - 1, by omega⟩
    simp only [Nat.add_zero] at hne
    simp [clientDoAux, hne, sleepsFor]
  | succ k ih =>
    intro fuel i hlt h429 hne
    obtain ⟨f, rfl⟩ : ∃ f, fuel = f + 1 := ⟨fuel - 1, by omega⟩
    have hf : k < f := by omega
    obtain ⟨f2, rfl⟩ : ∃ f2, f = f2 + 1 := ⟨f - 1, by omega⟩
    have h0 : (rs i).status = 429 := by
      have := h429 0 (by omega)
      simpa using this
    have hrec := ih (f2 + 1) (i + 1) hf
      (fun j hj => by
        have := h429 (j + 1) (by omega)
        rwa [show i + (j + 1) = i + 1 + j by omega] at this)
      (by rwa [show i + (k + 1) = i + 1 + k by omega] at hne)
    simp only [clientDoAux, h0, if_pos rfl, hrec, sleepsFor]
    rw [show i + 1 + k = i + (k + 1) by omega]
    simp

lemma doAux_exhaust (rs : Nat → HttpResp) :
    ∀ (fuel i : Nat), 0 < fuel →
      (∀ j, j < fuel → (rs (i + j)).status = 429) →
      clientDoAux (fun n => .ok (rs n)) i fuel =
        .ok (rs (i + (fuel - 1)), sleepsFor rs i fuel) := by
  intro fuel
  induction fuel with
  | zero => intro i h; omega
  | succ f ih =>
    intro i _ h429
    have h0 : (rs i).status = 429 := by
      have := h429 0 (by omega)
      simpa using this
    cases f with
    | zero => simp [clientDoAux, h0, sleepsFor]
    | succ f2 =>
      have hrec := ih (i + 1) (by omega)
        (fun j hj => by
          have := h429 (j + 1) (by omega)
          rwa [show i + (j + 1) = i + 1 + j by omega] at this)
      simp only [clientDoAux, h0, if_pos rfl, hrec, sleepsFor]
      rw [show i + 1 + (f2 + 1 - 1) = i + (f2 + 1 + 1 - 1) by omega]
      simp

/-- Claim C4: a fetch whose attempts answer some number of 429s below
the 5-attempt ceiling followed by a non-429 response returns that
response with no error after sleeping once per 429; each such sleep
prefers the parsed Retry-After hint and otherwise equals the linearly
growing backoff `5000ms * (attempt + 1)`; and a run of nothing but 429s
exhausts the ceiling and returns the last (fifth) received response
as-is rather than an error. -/
theorem clientDo_429_retry_policy :
    (∀ (rs : Nat → HttpResp) (k : Nat), k < maxRetries →
        (∀ j, j < k → (rs j).status = 429) → (rs k).status ≠ 429 →
        clientDo (fun n => .ok (rs n)) = .ok (rs k, sleepsFor rs 0 k)) ∧
    (∀ (r : HttpResp) (i : Nat),
        (∀ d, r.retryAfter = some d → retrySleepMs r i = d) ∧
        (r.retryAfter = none → retrySleepMs r i = 5000 * (Int.ofNat i + 1))) ∧
    (∀ rs : Nat → HttpResp,
        (∀ j, j < maxRetries → (rs j).status = 429) →
        clientDo (fun n => .ok (rs n)) =
          .ok (rs (maxRetries - 1), sleepsFor rs 0 maxRetries)) := by
  refine ⟨?_, ?_, ?_⟩
  · intro rs k hk h429 hne
    have h := doAux_run rs k maxRetries 0 hk
      (by intro j hj; simpa using h429 j hj) (by simpa using hne)
    simpa [clientDo] using h
  · intro r i
    constructor
    · intro d hd; simp [retrySleepMs, hd]
    · intro hd; simp [retrySleepMs, hd, backoffMs]
  · intro rs h429
    have h := doAux_exhaust rs maxRetries 0 (by decide)
      (by intro j hj; simpa using h429 j hj)
    simpa [clientDo] using h

def c4Resp429 : HttpResp := ⟨429, "", 0, none⟩
def c4Resp429Hint : HttpResp := ⟨429, "", 0, some 30000⟩
def c4RespOk : HttpResp := ⟨200, "text/html", 42, none⟩

/-- Concrete attempt sequence: a hintless 429, a 429 with a Retry-After
hint, then success. -/
def c4Seq : Nat → HttpResp
  | 0 => c4Resp429
  | 1 => c4Resp429Hint
  | _ => c4RespOk

theorem clientDo_429_retry_policy_witness :
    clientDo (fun n => .ok (c4Seq n)) =
      .ok (c4RespOk, [5000 * (Int.ofNat 0 + 1), 30000]) := by
  have h := clientDo_429_retry_policy.1 c4Seq 2 (by decide)
    (by intro j hj; interval_cases j <;> decide) (by decide)
  rw [h]
  rfl

/-! ## Title cleanup (scraper.go ScrapeAlbum, lines 50-64)

The source file's two cleanup literals are mojibake: the "date suffix"
regex is `\s*` followed by the BYTES 0xC3 0x82 0xC2 0xB7 — the two runes
U+00C2 U+00B7 ("Â·"), a double-encoding of the middle dot U+00B7 — and
the trimmed emoji suffix is the bytes 0x20 0xC3 0xB0 0xC5 0xB8 0xE2 0x80
0x9C 0xC2 0xB8 — a space and the four runes U+00F0 U+0178 U+201C U+00B8
("ðŸ“¸"), a double-encoding of " 📸".  The model reproduces those exact
rune sequences. -/

/-- The two-rune literal the date-suffix regex actually contains:
U+00C2 U+00B7. -/
def mojibakeDot : List Char := [Char.ofNat 0xC2, Char.ofNat 0xB7]

/-- The five-rune literal passed to `strings.TrimSuffix`:
' ' U+00F0 U+0178 U+201C U+00B8. -/
def cameraSuffixLit : List Char :=
  [' ', Char.ofNat 0xF0, Char.ofNat 0x178, Char.ofNat 0x201C, Char.ofNat 0xB8]

/-- RE2 `\s`: `[\t\n\f\r ]`. -/
def isRe2Space (c : Char) : Bool :=
  c = '\t' ∨ c = '\n' ∨ c = '\x0c' ∨ c = '\r' ∨ c = ' '

/-- Does the regex `\s*Â·.*$` (with the mojibake literal) match starting
exactly here?  `\s*` must run up to the literal, and `.*$` requires
every remaining character to be non-newline up to end of text. -/
def dateSuffixMatchAt (s : List Char) : Bool :=
  let t := s.dropWhile isRe2Space
  mojibakeDot.isPrefixOf t ∧ (t.drop mojibakeDot.length).all (· ≠ '\n')

/-- `dateSuffixRe.ReplaceAllString(title, "")`: delete from the leftmost
match (which necessarily runs to end of text) onward. -/
def stripDateSuffix : List Char → List Char
  | [] => []
  | c :: rest =>
    if dateSuffixMatchAt (c :: rest) then []
    else c :: stripDateSuffix rest

/-- `strings.TrimSuffix`. -/
def goTrimSuffixList (s suf : List Char) : List Char :=
  if suf.isSuffixOf s then s.take (s.length - suf.length) else s

/-- `html.UnescapeString` restricted to the five basic named entities;
the title inputs considered contain no entity references at all, so the
restriction is inert here. -/
def htmlUnescapeAux : Nat → List Char → List Char
  | 0, cs => cs
  | _ + 1, [] => []
  | fuel + 1, '&' :: rest =>
    if "amp;".toList.isPrefixOf rest then '&' :: htmlUnescapeAux fuel (rest.drop 4)
    else if "lt;".toList.isPrefixOf rest then '<' :: htmlUnescapeAux fuel (rest.drop 3)
    else if "gt;".toList.isPrefixOf rest then '>' :: htmlUnescapeAux fuel (rest.drop 3)
    else if "quot;".toList.isPrefixOf rest then
      '"' :: htmlUnescapeAux fuel (rest.drop 5)
    else if "#39;".toList.isPrefixOf rest then
      '\'' :: htmlUnescapeAux fuel (rest.drop 4)
    else '&' :: htmlUnescapeAux fuel rest
  | fuel + 1, c :: rest => c :: htmlUnescapeAux fuel rest

def htmlUnescape (cs : List Char) : List Char :=
  htmlUnescapeAux cs.length cs

/-- The title-cleanup chain of ScrapeAlbum: unescape, strip the
(mojibake) date-suffix pattern, trim whitespace, trim the (mojibake)
camera-emoji suffix. -/
def cleanTitle (t : List Char) : List Char :=
  goTrimSuffixList (goTrimSpace (stripDateSuffix (htmlUnescape t)))
    cameraSuffixLit

/-- The spec's example input "Summer Trip · Jul 4–6 📸" in genuine UTF-8:
a real middle dot U+00B7, an en dash U+2013, a real camera emoji
U+1F4F8. -/
def c6Input : List Char :=
  "Summer Trip ".toList ++ [Char.ofNat 0xB7] ++ " Jul 4".toList ++
    [Char.ofNat 0x2013] ++ "6 ".toList ++ [Char.ofNat 0x1F4F8]

/-- The same title as it would look after the double-encoding corruption
that produced the source literals. -/
def c6MojibakeInput : List Char :=
  "Summer Trip ".toList ++ mojibakeDot ++ " Jul 4".toList ++
    [Char.ofNat 0x2013] ++ "6".toList ++ cameraSuffixLit

/-- Claim C6: FALSIFIED by the code as written.  On the spec's example
input with a genuine middle dot and camera emoji, the cleanup chain is
the identity — the result is NOT "Summer Trip" — because the source
literals are mojibake (runes U+00C2 U+00B7 and U+00F0 U+0178 U+201C
U+00B8 instead of U+00B7 and U+1F4F8) and so never match genuine UTF-8
input; the same input re-encoded with the corruption IS cleaned to
"Summer Trip", showing the intended behaviour the encoding slip lost. -/
theorem cleanTitle_fails_on_genuine_utf8 :
    cleanTitle c6Input = c6Input ∧
    cleanTitle c6Input ≠ "Summer Trip".toList ∧
    cleanTitle c6MojibakeInput = "Summer Trip".toList := by
  refine ⟨by decide, by decide, by decide⟩

/-! ## Embedded-data extraction pipeline (scraper.go ScrapeAlbum)

The two concrete Go regexes are hand-compiled to scanning functions with
RE2 leftmost-match semantics; `json.Unmarshal` into `[]interface{}`
becomes a recursive-descent parser into `JValue` (restricted to integral
number literals and the common string escapes — the payloads the claims
exercise stay inside that fragment). -/

/-- The fixed meta-tag pattern up to the capture group:
`<meta property="og:title" content="`. -/
def ogTitlePat : List Char :=
  "<meta property=\"og:title\" content=\"".toList

/-- Match of `<meta property="og:title" content="([^"]+)">` anchored at
this position: the literal pattern, then a nonempty run of non-quote
characters (the capture), then `">`. -/
def ogTitleMatchAt (s : List Char) : Option (List Char) :=
  if ogTitlePat.isPrefixOf s then
    let rest := s.drop ogTitlePat.length
    let grp := rest.takeWhile (· ≠ '"')
    if grp ≠ [] ∧ (rest.drop grp.length).take 2 = ['"', '>'] then some grp
    else none
  else none

/-- Leftmost match of the title regex (`FindStringSubmatch`): first
position at which `ogTitleMatchAt` succeeds. -/
def findOgTitle : List Char → Option (List Char)
  | [] => none
  | c :: rest =>
    match ogTitleMatchAt (c :: rest) with
    | some grp => some grp
    | none => findOgTitle rest

/-- First index `j` in `s` at which the literal `data:` occurs with no
newline strictly before it — the end of the lazy `.*?` in the anchor
regex (`.` does not match a newline in RE2). -/
def findDataColon : List Char → Option Nat
  | [] => none
  | c :: rest =>
    if "data:".toList.isPrefixOf (c :: rest) then some 0
    else if c = '\n' then none
    else (findDataColon rest).map (· + 1)

/-- Match of `key:\s*'ds:1'.*?data:` anchored at this position,
returning the matched length (greedy `\s*` must run exactly up to the
quoted literal; lazy `.*?` ends at the first `data:`). -/
def anchorMatchAt (s : List Char) : Option Nat :=
  if "key:".toList.isPrefixOf s then
    let rest := s.drop 4
    let ws := rest.takeWhile isRe2Space
    let r1 := rest.drop ws.length
    if "'ds:1'".toList.isPrefixOf r1 then
      match findDataColon (r1.drop 6) with
      | some j => some (4 + ws.length + 6 + j + 5)
      | none => none
    else none
  else none

/-- `startRe.FindStringIndex(htmlContent)` and its `loc[1]`: the end
index of the leftmost anchor match. -/
def findAnchorEnd (s : List Char) : Option Nat :=
  go s 0
where
  go : List Char → Nat → Option Nat
    | [], _ => none
    | c :: rest, pos =>
      match anchorMatchAt (c :: rest) with
      | some len => some (pos + len)
      | none => go rest (pos + 1)

/-- Scan forward from `start` for the first `[` (source lines 76-82),
returning its absolute index. -/
def findBracketFrom (s : List Char) (start : Nat) : Option Nat :=
  go (s.drop start) start
where
  go : List Char → Nat → Option Nat
    | [], _ => none
    | c :: rest, pos => if c = '[' then some pos else go rest (pos + 1)

/-- The quote-aware bracket-balance scan (source lines 88-126), started
at the opening `[`: returns the length of the balanced span (source's
`jsonEnd - jsonStart`), or `none` when the depth never returns to
zero. -/
def bracketScan : List Char → Nat → Int → Bool → Bool → Option Nat
  | [], _, _, _, _ => none
  | c :: rest, i, balance, inString, escape =>
    if escape then bracketScan rest (i + 1) balance inString false
    else if c = '\\' then bracketScan rest (i + 1) balance inString true
    else if c = '"' then bracketScan rest (i + 1) balance (!inString) escape
    else if !inString ∧ c = '[' then
      bracketScan rest (i + 1) (balance + 1) inString escape
    else if !inString ∧ c = ']' then
      if balance - 1 = 0 then some (i + 1)
      else bracketScan rest (i + 1) (balance - 1) inString escape
    else bracketScan rest (i + 1) balance inString escape

/-! ### json.Unmarshal into JValue -/

def isJsonWs (c : Char) : Bool :=
  c = ' ' ∨ c = '\t' ∨ c = '\n' ∨ c = '\r'

def jsonStrEsc (c : Char) : Option Char :=
  if c = '"' then some '"'
  else if c = '\\' then some '\\'
  else if c = '/' then some '/'
  else if c = 'n' then some '\n'
  else if c = 't' then some '\t'
  else if c = 'r' then some '\r'
  else if c = 'b' then some '\x08'
  else if c = 'f' then some '\x0c'
  else none

/-- JSON string body after the opening quote: content and remainder
after the closing quote.  `\uXXXX` escapes are outside the modelled
fragment. -/
def parseStrBody : Nat → List Char → Option (List Char × List Char)
  | 0, _ => none
  | _ + 1, [] => none
  | fuel + 1, c :: rest =>
    if c = '"' then some ([], rest)
    else if c = '\\' then
      match rest with
      | [] => none
      | e :: rest2 =>
        match jsonStrEsc e with
        | some d =>
          (parseStrBody fuel rest2).map fun (body, rem) => (d :: body, rem)
        | none => none
    else (parseStrBody fuel rest).map fun (body, rem) => (c :: body, rem)

/-- Integer JSON number literal: optional '-', nonempty digit run, no
fraction or exponent (integral-number fragment). -/
def parseNumLit (s : List Char) : Option (Int × List Char) :=
  match s with
  | '-' :: rest =>
    let ds := rest.takeWhile Char.isDigit
    match digitsVal ds with
    | some n =>
      let rem := rest.drop ds.length
      if rem.head? = some '.' ∨ rem.head? = some 'e' ∨ rem.head? = some 'E'
      then none else some (-(Int.ofNat n), rem)
    | none => none
  | _ =>
    let ds := s.takeWhile Char.isDigit
    match digitsVal ds with
    | some n =>
      let rem := s.drop ds.length
      if rem.head? = some '.' ∨ rem.head? = some 'e' ∨ rem.head? = some 'E'
      then none else some (Int.ofNat n, rem)
    | none => none

mutual

def parseVal : Nat → List Char → Option (JValue × List Char)
  | 0, _ => none
  | fuel + 1, s =>
    match s.dropWhile isJsonWs with
    | [] => none
    | c :: rest =>
      if c = 'n' then
        if "ull".toList.isPrefixOf rest then some (.null, rest.drop 3) else none
      else if c = 't' then
        if "rue".toList.isPrefixOf rest then some (.bool true, rest.drop 3)
        else none
      else if c = 'f' then
        if "alse".toList.isPrefixOf rest then some (.bool false, rest.drop 4)
        else none
      else if c = '"' then
        (parseStrBody (fuel + 1) rest).map fun (body, rem) =>
          (.str (String.mk body), rem)
      else if c = '[' then
        match (rest.dropWhile isJsonWs) with
        | ']' :: rem => some (.arr [], rem)
        | _ =>
          (parseElems fuel rest).map fun (xs, rem) => (.arr xs, rem)
      else if c = '{' then
        match (rest.dropWhile isJsonWs) with
        | '}' :: rem => some (.obj [], rem)
        | _ =>
          (parseFields fuel rest).map fun (fs, rem) => (.obj fs, rem)
      else
        (parseNumLit (c :: rest)).map fun (n, rem) => (.num n, rem)

def parseElems : Nat → List Char → Option (List JValue × List Char)
  | 0, _ => none
  | fuel + 1, s =>
    match parseVal fuel s with
    | none => none
    | some (v, rem) =>
      match rem.dropWhile isJsonWs with
      | ',' :: rem2 =>
        (parseElems fuel rem2).map fun (xs, rem3) => (v :: xs, rem3)
      | ']' :: rem2 => some ([v], rem2)
      | _ => none

def parseFields : Nat → List Char → Option (List (String × JValue) × List Char)
  | 0, _ => none
  | fuel + 1, s =>
    match s.dropWhile isJsonWs with
    | '"' :: rest =>
      match parseStrBody (fuel + 1) rest with
      | none => none
      | some (key, rem) =>
        match rem.dropWhile isJsonWs with
        | ':' :: rem2 =>
          match parseVal fuel rem2 with
          | none => none
          | some (v, rem3) =>
            match rem3.dropWhile isJsonWs with
            | ',' :: rem4 =>
              (parseFields fuel rem4).map fun (fs, rem5) =>
                ((String.mk key, v) :: fs, rem5)
            | '}' :: rem4 => some ([(String.mk key, v)], rem4)
            | _ => none
        | _ => none
    | _ => none

end

/-- `json.Unmarshal([]byte(jsonStr), &data)` with `data []interface{}`:
parse one value, require it to be an array, reject trailing
non-whitespace. -/
def parseJsonTopArray (s : List Char) : Option (List JValue) :=
  match parseVal (s.length + 1) s with
  | none => none
  | some (v, rem) =>
    if rem.dropWhile isJsonWs ≠ [] then none
    else match v with
      | .arr xs => some xs
      | _ => none

/-! ### Item-list extraction and the full scrape pipeline -/

structure AlbumRecord where
  id : String
  title : String
  photos : List Photo
  deriving DecidableEq, Repr

deriving instance DecidableEq for Except

/-- Item-list selection (source lines 139-152): prefer index 1 of the
top-level array when it is itself an array (even an empty one — a non-nil
empty slice suppresses the fallback), else fall back to index 0, else no
items. -/
def pickItemList (data : List JValue) : List JValue :=
  match data.get? 1 with
  | some (.arr l) => l
  | _ =>
    match data.get? 0 with
    | some (.arr l) => l
    | _ => []

/-- Description scan (source lines 196-202): the first non-empty string
at the positions from index 3 onward. -/
def firstDesc : List JValue → String
  | [] => ""
  | .str d :: rest => if d ≠ "" then d else firstDesc rest
  | _ :: rest => firstDesc rest

/-- One candidate item of the scraped list (source lines 168-213):
non-arrays and arrays of fewer than two entries are dropped, the ID is
the string at index 0 (empty when the type assertion fails), index 1
must be an array whose head is the URL, indices 1/2 of it give the
dimensions when it has three entries, and an item with an empty URL is
dropped. -/
def buildPhoto (nowMs : Int) (item : JValue) : Option Photo :=
  match item with
  | .arr itemArr =>
    if itemArr.length < 2 then none
    else
      let id := match itemArr.head? with
        | some (.str s) => s
        | _ => ""
      match itemArr.get? 1 with
      | some (.arr mediaArr) =>
        if mediaArr.length < 1 then none
        else
          let url := match mediaArr.head? with
            | some (.str s) => s
            | _ => ""
          let w := if mediaArr.length ≥ 3 then
              (match mediaArr.get? 1 with | some (.num n) => n | _ => 0)
            else 0
          let h := if mediaArr.length ≥ 3 then
              (match mediaArr.get? 2 with | some (.num n) => n | _ => 0)
            else 0
          if url = "" then none
          else some ⟨id, url, w, h, extractTimestamp itemArr nowMs,
                     firstDesc (itemArr.drop 3), ""⟩
      | _ => none
  | _ => none

/-- The pure part of `ScrapeAlbum` after the page fetch (a 200-status
body), as a function of the raw page characters and the clock reading in
milliseconds: title via the meta-tag regex with the fixed default and
the cleanup chain, anchor via the `ds:1` regex, payload isolation via
the quote-aware bracket scan, JSON parse, item-list pick, item loop. -/
def scrapeHtml (pageUrl : String) (html : List Char) (nowMs : Int) :
    Except String AlbumRecord :=
  let title0 := match findOgTitle html with
    | some grp => grp
    | none => "Google Photos Album".toList
  let title := String.mk (cleanTitle title0)
  match findAnchorEnd html with
  | none => .error "could not find album data (ds:1) in page"
  | some startPos =>
    match findBracketFrom html startPos with
    | none => .error "could not find start of JSON array"
    | some jsonStart =>
      match bracketScan (html.drop jsonStart) 0 0 false false with
      | none => .error "could not find end of JSON array"
      | some len =>
        match parseJsonTopArray ((html.drop jsonStart).take len) with
        | none => .error "failed to parse album JSON"
        | some data =>
          .ok ⟨pageUrl, title, (pickItemList data).filterMap (buildPhoto nowMs)⟩

/-- Concrete page for claim C7: a bracket-balanced `ds:1` payload whose
single item carries the candidate timestamp 1800000000000. -/
def c7Html : List Char :=
  ("<html><script>AF_initDataCallback(\x7bkey: 'ds:1', hash: '2', " ++
   "data:[null,[[\"id1\",[\"https://base\",100,200],[1800000000000]]]]" ++
   "\x7d);</script></html>").toList

/-- Claim C7 counterexample: extraction reads the wall clock (the
timestamp window's ceiling is now + 1 day), so the very same bytes
produce different `AlbumRecord` contents at two different clock
readings — at the earlier reading the item's candidate 1800000000000 is
in the future and is discarded (takenAt absent); at the later reading it
survives. -/
theorem scrapeHtml_same_bytes_different_clock :
    scrapeHtml "https://album" c7Html 1700000000000 =
      .ok ⟨"https://album", "Google Photos Album",
           [⟨"id1", "https://base", 100, 200, none, "", ""⟩]⟩ ∧
    scrapeHtml "https://album" c7Html 1900000000000 =
      .ok ⟨"https://album", "Google Photos Album",
           [⟨"id1", "https://base", 100, 200, some 1800000000000, "", ""⟩]⟩ ∧
    scrapeHtml "https://album" c7Html 1700000000000 ≠
      scrapeHtml "https://album" c7Html 1900000000000 := by
  refine ⟨by decide, by decide, by decide⟩

/-- Claim C7 as amended: extraction is deterministic in its inputs —
identical bytes AND an identical clock reading yield identical
`AlbumRecord` contents; the clock reading is a genuine input of the
extraction (see the counterexample), so idempotence over bytes alone
does not hold. -/
theorem scrapeHtml_deterministic (pageUrl : String) (html : List Char)
    (n1 n2 : Int) (h : n1 = n2) :
    scrapeHtml pageUrl html n1 = scrapeHtml pageUrl html n2 := by
  rw [h]

theorem scrapeHtml_deterministic_witness :
    scrapeHtml "https://album" c7Html 1700000000000 =
      scrapeHtml "https://album" c7Html 1700000000000 :=
  scrapeHtml_deterministic "https://album" c7Html 1700000000000
    1700000000000 rfl
